import Mathlib

set_option linter.all false

/-!
Verification of the self-healing supervisor (`self_healing.py`).

The monitor loop `monitor_and_recover`, the health probe
`is_component_healthy`, the process controller `start_uvicorn` /
`stop_uvicorn` / `restart_component` and the exit-trigger endpoint
`trigger_exit` are embedded shallowly below, and the spec's testable
properties are proved or refuted against the embedding.
-/

namespace SelfHealing

/-- Maximum consecutive restart attempts before escalation (`MAX_RETRIES = 5`,
line 24 of self_healing.py). -/
def MAX_RETRIES : Nat := 5

/-- Initial backoff in seconds (`INITIAL_BACKOFF = 2`, line 25). -/
def INITIAL_BACKOFF : Nat := 2

/-- Grace period passed to the process-handle wait in `stop_uvicorn`
(`uvicorn_process.wait(timeout=10)`, line 68). -/
def GRACE_PERIOD : Nat := 10

/-- Settling delay inside `restart_component` (`time.sleep(5)`, line 81). -/
def RESTART_SETTLE_DELAY : Nat := 5

/-- Inter-probe interval: the monitor sleeps 10 times 1 second between probes
(lines 141-145). -/
def PROBE_INTERVAL : Nat := 10

/-- The loop-local mutable state of `monitor_and_recover`: `retry_count`,
`backoff` and `prev_healthy` (lines 106-108). -/
structure MonitorState where
  retry_count : Nat
  backoff : Nat
  prev_healthy : Option Bool
  deriving DecidableEq, Repr

/-- The state on entry to the loop: `retry_count = 0`,
`backoff = INITIAL_BACKOFF`, `prev_healthy = None` (lines 106-108). -/
def initState : MonitorState := ⟨0, INITIAL_BACKOFF, none⟩

/-- Observable effects of one iteration of the body of `monitor_and_recover`:
whether the health-state transition line was logged (lines 120-123), whether
`restart_component()` was called (line 133), whether the escalation line was
logged (line 131), and the duration of the `time.sleep(backoff)` call
(line 135; `0` when the sleep is skipped). -/
structure IterEffects where
  transition_logged : Bool
  restarted : Bool
  escalation_logged : Bool
  backoff_sleep : Nat
  deriving DecidableEq, Repr

/-- One iteration of the body of `monitor_and_recover` (lines 116-138) on a
probe result `current_healthy`, returning the updated state and the observable
effects.  Mirrors the source: the transition log compares to `prev_healthy`;
on healthy both counters reset; on unhealthy `retry_count` is incremented and
then compared against `MAX_RETRIES`; only in the not-exceeded branch does the
loop restart, sleep `backoff` seconds and double `backoff`. -/
def monitorStep (s : MonitorState) (current_healthy : Bool) :
    MonitorState × IterEffects :=
  let logged : Bool :=
    if current_healthy then s.prev_healthy != some true
    else s.prev_healthy != some false
  if current_healthy then
    (⟨0, INITIAL_BACKOFF, some true⟩, ⟨logged, false, false, 0⟩)
  else if s.retry_count + 1 > MAX_RETRIES then
    (⟨s.retry_count + 1, s.backoff, some false⟩, ⟨logged, false, true, 0⟩)
  else
    (⟨s.retry_count + 1, s.backoff * 2, some false⟩,
     ⟨logged, true, false, s.backoff⟩)

/-- Run the loop body over a finite sequence of probe results, collecting the
per-iteration effects. -/
def monitorRun (s : MonitorState) : List Bool → MonitorState × List IterEffects
  | [] => (s, [])
  | b :: rest =>
    let step := monitorStep s b
    let tail := monitorRun step.1 rest
    (tail.1, step.2 :: tail.2)

/-- State after the monitor loop has processed the probe results `rs`,
starting from the initial state. -/
def finalState (rs : List Bool) : MonitorState := (monitorRun initState rs).1

/-- Per-iteration effects of the monitor loop over the probe results `rs`. -/
def effects (rs : List Bool) : List IterEffects := (monitorRun initState rs).2

/-- Number of Unhealthy results since the most recent Healthy result of `rs`
(or since the start, when no Healthy result occurs): the length of the
maximal all-`false` suffix of `rs`. -/
def trailingFailures (rs : List Bool) : Nat :=
  (rs.reverse.takeWhile (fun b => !b)).length

/-- Outcome of the single `requests.get(HEALTH_CHECK_URL, timeout=5)` call of
`is_component_healthy` (line 90): a response with some status code, a timeout,
or a transport error. -/
inductive ProbeOutcome
  | response (status : Nat)
  | timeout
  | transportError
  deriving DecidableEq, Repr

/-- The `requests.get` call as a fallible operation: a timeout or a transport
error is raised as an exception. -/
def requests_get : ProbeOutcome → Except String Nat
  | .response s => .ok s
  | .timeout => .error ("Timeout")
  | .transportError => .error ("ConnectionError")

/-- Boolean classification plus logged diagnostics produced by the probe. -/
structure ProbeResult where
  healthy : Bool
  diagnostics : List String
  deriving DecidableEq, Repr

/-- `is_component_healthy` (lines 84-98): status 200 maps to `True`; any other
status returns `False` and logs an error; any exception raised by the request
is caught and mapped to `False` plus a logged diagnostic.  The `Except` result
type records that an uncaught exception could in principle propagate; the
theorems show it never does. -/
def is_component_healthy (o : ProbeOutcome) : Except String ProbeResult :=
  match requests_get o with
  | .ok status =>
    if status == 200 then .ok ⟨true, []⟩
    else .ok ⟨false, ["Health check failed: HTTP " ++ toString status]⟩
  | .error e => .ok ⟨false, ["Health check exception: " ++ e]⟩

/-- The world of the process controller: the module-level `uvicorn_process`
handle (line 16), here the index of the process it refers to, together with
the pool of every OS process spawned so far (`procs.getD i false = true` iff
process `i` is still running, i.e. `poll() is None`). -/
structure World where
  uvicorn_process : Option Nat
  procs : List Bool
  deriving DecidableEq, Repr

/-- Before any spawn: `uvicorn_process = None` and no processes exist. -/
def World.init : World := ⟨none, []⟩

/-- `poll() is None` for process `i`: it is still running. -/
def World.running (w : World) (i : Nat) : Bool := w.procs.getD i false

/-- The guard `uvicorn_process and uvicorn_process.poll() is None`
(lines 47 and 64). -/
def World.handleLive (w : World) : Bool :=
  match w.uvicorn_process with
  | some i => w.running i
  | none => false

/-- `start_uvicorn` (lines 42-57): when the stored handle is still running,
no-op and return it; otherwise attempt to spawn (`spawnOk` models whether
`subprocess.Popen` succeeds), store and return the new handle on success, and
on failure log and return `None` leaving the global unchanged. -/
def start_uvicorn (w : World) (spawnOk : Bool) : World × Option Nat :=
  if w.handleLive then (w, w.uvicorn_process)
  else if spawnOk then
    (⟨some w.procs.length, w.procs ++ [true]⟩, some w.procs.length)
  else (w, none)

/-- `Popen.wait(timeout)`: returns once the process has exited, or raises
`TimeoutExpired`.  `exitTime` is the number of seconds after which the
terminated process actually exits (`none`: it never exits). -/
def procWait (timeout : Nat) (exitTime : Option Nat) : Except String Nat :=
  match exitTime with
  | some t => if t ≤ timeout then .ok t else .error ("TimeoutExpired")
  | none => .error ("TimeoutExpired")

/-- `stop_uvicorn` (lines 59-73): no-op (plus a log line) when no running
handle exists; otherwise `terminate()` then `wait(timeout=10)`; a wait timeout
is caught and logged, the process is not force-killed.  Returns the new world,
the seconds spent waiting and the log lines; the `Except` result type records
that an uncaught exception could in principle propagate. -/
def stop_uvicorn (w : World) (exitTime : Option Nat) :
    Except String (World × Nat × List String) :=
  match w.uvicorn_process with
  | some i =>
    if w.running i then
      match procWait GRACE_PERIOD exitTime with
      | .ok t =>
        .ok (⟨w.uvicorn_process, w.procs.set i false⟩, t,
             ["Terminating uvicorn", "Uvicorn terminated successfully."])
      | .error e =>
        .ok (w, GRACE_PERIOD,
             ["Terminating uvicorn", "Failed to terminate uvicorn: " ++ e])
    else .ok (w, 0, ["No active uvicorn process found."])
  | none => .ok (w, 0, ["No active uvicorn process found."])

/-- Events acting on the process world: a `start_uvicorn` call, a
`stop_uvicorn` call, or a spawned process dying on its own (the failure mode
the monitor exists to repair). -/
inductive WEvent
  | start (spawnOk : Bool)
  | stop (exitTime : Option Nat)
  | procDies (i : Nat)
  deriving DecidableEq, Repr

/-- Apply one event to the world. -/
def stepWorld (w : World) (e : WEvent) : World :=
  match e with
  | .start ok => (start_uvicorn w ok).1
  | .stop t =>
    match stop_uvicorn w t with
    | .ok r => r.1
    | .error _ => w
  | .procDies i => ⟨w.uvicorn_process, w.procs.set i false⟩

/-- World reached from the initial world by a sequence of events. -/
def runWorld (es : List WEvent) : World := es.foldl stepWorld World.init

/-- Single-owner invariant of the process world: every process that is still
running is the one referenced by the stored `uvicorn_process` handle. -/
def Inv (w : World) : Prop :=
  ∀ i : Nat, w.running i = true → w.uvicorn_process = some i

/-- Whether the wait of `stop_uvicorn` times out: the terminated process does
not exit within the grace period. -/
def timedOut : Option Nat → Prop
  | some t => GRACE_PERIOD < t
  | none => True

/-- The accesses to the global `exit_triggered` flag present in the program:
the write in `trigger_exit` (line 34) and the reads at the top of the monitor
loop (line 112) and inside the inter-probe sleep (line 142). -/
inductive FlagAccess
  | triggerExit
  | monitorTopRead
  | monitorSleepRead
  deriving DecidableEq, Repr

/-- The handler of `POST /trigger_exit` (lines 31-35): sets the flag to true
(whatever its previous value) and returns the acknowledgement body. -/
def trigger_exit (_exit_triggered : Bool) : Bool × String :=
  (true, "exit triggered")

/-- Effect of each flag access on the value of `exit_triggered`. -/
def flagAfter (op : FlagAccess) (f : Bool) : Bool :=
  match op with
  | .triggerExit => (trigger_exit f).1
  | .monitorTopRead => f
  | .monitorSleepRead => f

/-- Value of `exit_triggered` after a sequence of accesses starting from
value `f`. -/
def flagRun (f : Bool) (ops : List FlagAccess) : Bool :=
  ops.foldl (fun g op => flagAfter op g) f

/-- Atomic actions of the monitor loop, used to model at which points the
concurrently written `exit_triggered` flag is observed (lines 110-145). -/
inductive ActKind
  | topCheck
  | probe
  | restartCall
  | backoffSleep
  | sleepCheck
  | unitSleep
  deriving DecidableEq, Repr

/-- A timed atomic action: its kind and its duration in seconds. -/
structure Act where
  kind : ActKind
  dur : Nat
  deriving DecidableEq, Repr

/-- The exit checks: line 112 (`topCheck`) and line 142 (`sleepCheck`). -/
def isCheck : ActKind → Bool
  | .topCheck => true
  | .sleepCheck => true
  | _ => false

/-- The inter-probe sleep (lines 141-145): ten times, an exit check followed
by `time.sleep(1)`. -/
def sleepPhase : List Act :=
  (List.replicate PROBE_INTERVAL [⟨.sleepCheck, 0⟩, ⟨.unitSleep, 1⟩]).join

/-- The timed atomic actions of one iteration of the monitor loop on probe
result `b` from state `s`: the top-of-loop exit check (line 112), the probe
(line 117), then - only when the iteration restarts - the
`restart_component()` call (line 133; its modelled duration is the guaranteed
`time.sleep(5)` settling delay, a lower bound since the stop-side wait adds
up to `GRACE_PERIOD` more) followed by the `time.sleep(backoff)` of line 135,
and finally the inter-probe sleep of lines 141-145. -/
def iterActs (s : MonitorState) (b : Bool) : List Act :=
  [⟨.topCheck, 0⟩, ⟨.probe, 0⟩] ++
    (if (monitorStep s b).2.restarted then
      [⟨.restartCall, RESTART_SETTLE_DELAY⟩, ⟨.backoffSleep, s.backoff⟩]
    else []) ++ sleepPhase

/-- The action trace of the monitor loop over the probe results `rs`. -/
def trace (s : MonitorState) : List Bool → List Act
  | [] => []
  | b :: rest => iterActs s b ++ trace (monitorStep s b).1 rest

/-- The action trace of the monitor loop from the initial state. -/
def monitorTrace (rs : List Bool) : List Act := trace initState rs

/-- The actions still executed once `exit_triggered` is true at the head of
`l`: execution continues up to (and including) the first exit check, where the
loop terminates (lines 112-114 and 142-144). -/
def window : List Act → List Act
  | [] => []
  | a :: l => if isCheck a.kind then [a] else a :: window l

/-- The actions executed after `exit_triggered` is set just before action `n`
of the trace `tr`. -/
def executedAfterFlag (tr : List Act) (n : Nat) : List Act :=
  window (tr.drop n)

/-- Number of `restart_component()` calls among the actions `l`. -/
def countRestarts (l : List Act) : Nat :=
  l.countP (fun a => decide (a.kind = ActKind.restartCall))

/-- Total duration in seconds of the actions `l`. -/
def totalDur (l : List Act) : Nat := (l.map Act.dur).sum

/-- Scan guard for the restart bound: `c` counts the restart calls seen since
the last exit check; the scan requires at most one restart call between
consecutive exit checks. -/
def segOK : Nat → List Act → Bool
  | _, [] => true
  | c, a :: l =>
    if isCheck a.kind then segOK 0 l
    else if a.kind = ActKind.restartCall then
      decide (c + 1 ≤ 1) && segOK (c + 1) l
    else segOK c l

/-- Every `unitSleep` action is immediately followed by an exit check (or ends
the trace): the 1-second sleeps of lines 141-145 are interleaved with exit
checks. -/
def sleepNext : List Act → Prop
  | a :: b :: l =>
    (a.kind = ActKind.unitSleep → isCheck b.kind = true) ∧ sleepNext (b :: l)
  | _ => True

/-- Duration discipline of trace actions: exit checks take no modelled time
and each unit sleep takes one second. -/
def actWF (a : Act) : Prop :=
  (isCheck a.kind = true → a.dur = 0) ∧ (a.kind = ActKind.unitSleep → a.dur = 1)

/-- The list is empty or starts with an exit check (every iteration of the
monitor loop starts with the top-of-loop check of line 112). -/
def headCheck : List Act → Prop
  | [] => True
  | a :: _ => isCheck a.kind = true

theorem monitorRun_append (s : MonitorState) (xs ys : List Bool) :
    monitorRun s (xs ++ ys) =
      ((monitorRun (monitorRun s xs).1 ys).1,
       (monitorRun s xs).2 ++ (monitorRun (monitorRun s xs).1 ys).2) := by
  induction xs generalizing s with
  | nil => simp [monitorRun]
  | cons b rest ih => simp [monitorRun, ih]

theorem finalState_snoc (rs : List Bool) (b : Bool) :
    finalState (rs ++ [b]) = (monitorStep (finalState rs) b).1 := by
  simp [finalState, monitorRun_append, monitorRun]

theorem trailingFailures_snoc (rs : List Bool) (b : Bool) :
    trailingFailures (rs ++ [b]) =
      if b then 0 else trailingFailures rs + 1 := by
  cases b <;> simp [trailingFailures, List.takeWhile]

theorem retry_count_eq_trailingFailures (rs : List Bool) :
    (finalState rs).retry_count = trailingFailures rs := by
  induction rs using List.reverseRecOn with
  | nil => rfl
  | append_singleton xs b ih =>
    rw [finalState_snoc, trailingFailures_snoc]
    cases b with
    | true => simp [monitorStep]
    | false =>
      simp only [monitorStep, if_neg, Bool.false_eq_true, not_false_iff]
      split <;> simp [ih]

theorem prev_healthy_snoc (rs : List Bool) (b : Bool) :
    (finalState (rs ++ [b])).prev_healthy = some b := by
  rw [finalState_snoc]
  cases b <;> simp [monitorStep] <;> split <;> simp

theorem effects_length (rs : List Bool) : (effects rs).length = rs.length := by
  suffices h : ∀ (s : MonitorState) (l : List Bool),
      ((monitorRun s l).2).length = l.length from h initState rs
  intro s l
  induction l generalizing s with
  | nil => rfl
  | cons b rest ih => simp [monitorRun, ih]

/-- C4: for every sequence of probe outcomes processed by the monitor loop,
after each iteration `retry_count` equals the number of Unhealthy probe
results observed since the most recent Healthy result, or since the start of
the loop if no Healthy result has occurred. -/
theorem C4_retry_count_invariant (rs : List Bool) :
    (finalState rs).retry_count = trailingFailures rs :=
  retry_count_eq_trailingFailures rs

/-- C1 counterexample: after five consecutive Unhealthy results the backoff
is 64; a sixth consecutive Unhealthy observation leaves it at 64 instead of
doubling it to 128, because line 136 (`backoff *= 2`) sits in the
restart branch and is skipped once `retry_count` exceeds `MAX_RETRIES`. -/
theorem C1_counterexample :
    ¬ ((finalState (List.replicate 5 false ++ [false])).backoff =
        (finalState (List.replicate 5 false)).backoff * 2) := by
  decide

/-- C1 (amended): the backoff is multiplied by 2 on each consecutive
Unhealthy observation for which the consecutive-failure count has not yet
exceeded `MAX_RETRIES` (the iterations that restart), is left unchanged on
Unhealthy observations past the cap, and is reset to `INITIAL_BACKOFF`
immediately after any Healthy observation. -/
theorem C1_backoff_amended (rs : List Bool) (b : Bool) :
    (finalState (rs ++ [b])).backoff =
      if b then INITIAL_BACKOFF
      else if trailingFailures (rs ++ [b]) ≤ MAX_RETRIES then
        (finalState rs).backoff * 2
      else (finalState rs).backoff := by
  rw [finalState_snoc, trailingFailures_snoc]
  cases b with
  | true => simp [monitorStep]
  | false =>
    have h := retry_count_eq_trailingFailures rs
    simp only [Bool.false_eq_true, if_false, monitorStep]
    rw [← h]
    rcases le_or_lt ((finalState rs).retry_count + 1) MAX_RETRIES with hle | hgt
    · simp [Nat.not_lt.mpr hle, hle]
    · simp [hgt, Nat.not_le.mpr hgt]

/-- C2: in every iteration of the monitor loop (history `rs`, probe result
`b`), `restart_component()` is invoked if and only if the probe result was
Unhealthy and the consecutive-failure count of that iteration has not
exceeded `MAX_RETRIES`. -/
theorem C2_restart_iff (rs : List Bool) (b : Bool) :
    (monitorStep (finalState rs) b).2.restarted = true ↔
      (b = false ∧ trailingFailures (rs ++ [b]) ≤ MAX_RETRIES) := by
  rw [trailingFailures_snoc]
  cases b with
  | true => simp [monitorStep]
  | false =>
    have h := retry_count_eq_trailingFailures rs
    rw [← h]
    simp only [monitorStep, Bool.false_eq_true, if_false]
    rcases le_or_lt ((finalState rs).retry_count + 1) MAX_RETRIES with hle | hgt
    · simp [Nat.not_lt.mpr hle, hle]
    · simp [hgt, Nat.not_le.mpr hgt]

/-- C5: in every iteration that has a previous iteration (history `rs ++
[b]`, current probe result `c`), the health-state log line is emitted exactly
when the current result differs from the previous iteration's result, and
never when the two results are equal. -/
theorem C5_transition_log (rs : List Bool) (b c : Bool) :
    (monitorStep (finalState (rs ++ [b])) c).2.transition_logged = (c != b) := by
  have h := prev_healthy_snoc rs b
  cases c with
  | true => cases b <;> simp [monitorStep, h]
  | false =>
    cases b <;> simp only [monitorStep, h, Bool.false_eq_true, if_false] <;>
      split <;> simp

/-- C10: once the consecutive-failure counter has exceeded `MAX_RETRIES`,
an Unhealthy iteration logs the escalation, performs no restart, skips the
backoff sleep, still increments the counter, and the loop goes on processing
every further probe result; a restart is issued again on the first Unhealthy
result after a Healthy observation has reset the counter. -/
theorem C10_exhaustion_behavior (rs : List Bool)
    (h : MAX_RETRIES < trailingFailures rs) :
    (monitorStep (finalState rs) false).2.escalation_logged = true ∧
    (monitorStep (finalState rs) false).2.restarted = false ∧
    (monitorStep (finalState rs) false).2.backoff_sleep = 0 ∧
    (monitorStep (finalState rs) false).1.retry_count =
      (finalState rs).retry_count + 1 ∧
    (∀ more : List Bool,
      (effects (rs ++ more)).length = rs.length + more.length) ∧
    (monitorStep (finalState (rs ++ [true])) false).2.restarted = true := by
  have hr : MAX_RETRIES < (finalState rs).retry_count + 1 := by
    rw [retry_count_eq_trailingFailures]; omega
  have hz : (finalState (rs ++ [true])).retry_count = 0 := by
    rw [retry_count_eq_trailingFailures, trailingFailures_snoc]; simp
  refine ⟨?_, ?_, ?_, ?_, ?_, ?_⟩
  · simp [monitorStep, hr]
  · simp [monitorStep, hr]
  · simp [monitorStep, hr]
  · simp [monitorStep, hr]
  · intro more; rw [effects_length]; simp
  · simp [monitorStep, hz, MAX_RETRIES]

/-- Witness for C10 at six consecutive Unhealthy results. -/
theorem C10_exhaustion_behavior_witness :
    (monitorStep (finalState (List.replicate 6 false)) false).2.escalation_logged
        = true ∧
    (monitorStep (finalState (List.replicate 6 false)) false).2.restarted
        = false :=
  ⟨(C10_exhaustion_behavior (List.replicate 6 false) (by decide)).1,
   (C10_exhaustion_behavior (List.replicate 6 false) (by decide)).2.1⟩

/-- C6: for every outcome of the single probe request, `is_component_healthy`
returns a boolean classification without propagating any exception; the
classification is `True` exactly for a status-200 response, and every failure
mode yields `False` plus a logged diagnostic. -/
theorem C6_probe_never_raises (o : ProbeOutcome) :
    ∃ r : ProbeResult, is_component_healthy o = .ok r ∧
      (r.healthy = true ↔ o = ProbeOutcome.response 200) ∧
      (r.healthy = false → r.diagnostics ≠ []) := by
  cases o with
  | response s =>
    by_cases hs : s = 200
    · subst hs; exact ⟨⟨true, []⟩, rfl, by simp, by simp⟩
    · have hs' : (s == 200) = false := by simp [hs]
      refine ⟨⟨false, ["Health check failed: HTTP " ++ toString s]⟩, ?_, ?_, ?_⟩
      · simp [is_component_healthy, requests_get, hs']
      · simp [hs]
      · simp
  | timeout => exact ⟨_, rfl, by simp, by simp⟩
  | transportError => exact ⟨_, rfl, by simp, by simp⟩

/-- Witness for C6 at a probe timeout. -/
theorem C6_probe_never_raises_witness :
    (is_component_healthy ProbeOutcome.timeout).toOption.isSome = true := by
  obtain ⟨r, hr, -, -⟩ := C6_probe_never_raises ProbeOutcome.timeout
  rw [hr]; rfl

/-- C9: the `exit_triggered` flag is write-once-true: no access present in
the program resets it to false once it is true, and every invocation of the
exit-trigger endpoint - also when the flag is already true - sets the flag
and returns the success acknowledgement. -/
theorem C9_exit_flag_write_once (ops : List FlagAccess) (f : Bool)
    (h : f = true) :
    flagRun f ops = true ∧
    ∀ g : Bool, trigger_exit g = (true, "exit triggered") := by
  subst h
  refine ⟨?_, fun g => rfl⟩
  induction ops with
  | nil => rfl
  | cons op rest ih =>
    have hstep : flagAfter op true = true := by cases op <;> rfl
    simpa [flagRun, List.foldl, hstep] using ih

/-- Witness for C9: a trigger followed by a read leaves the flag true. -/
theorem C9_exit_flag_write_once_witness :
    flagRun true [FlagAccess.triggerExit, FlagAccess.monitorTopRead] = true :=
  (C9_exit_flag_write_once [FlagAccess.triggerExit, FlagAccess.monitorTopRead]
    true rfl).1

theorem inv_init : Inv World.init := by
  intro i h
  simp [World.running, World.init] at h

theorem handleLive_of_running (w : World) (i : Nat)
    (hup : w.uvicorn_process = some i) (hr : w.running i = true) :
    w.handleLive = true := by
  simp [World.handleLive, hup, hr]

theorem inv_setDead (w : World) (i : Nat) (hw : Inv w) :
    Inv ⟨w.uvicorn_process, w.procs.set i false⟩ := by
  intro j hj
  apply hw
  simp only [World.running, List.getD_eq_getElem?_getD] at hj ⊢
  rw [List.getElem?_set] at hj
  split at hj
  · split at hj <;> simp at hj
  · exact hj

theorem inv_start (w : World) (ok : Bool) (hw : Inv w) :
    Inv (start_uvicorn w ok).1 := by
  unfold start_uvicorn
  by_cases hl : w.handleLive = true
  · simpa [hl] using hw
  · cases ok with
    | false => simpa [hl] using hw
    | true =>
      simp only [hl, if_false, if_true, Bool.false_eq_true]
      intro j hj
      simp only [World.running, List.getD_eq_getElem?_getD] at hj
      rcases Nat.lt_trichotomy j w.procs.length with h | h | h
      · rw [List.getElem?_append_left h] at hj
        have hrun : w.running j = true := by
          simp [World.running, List.getD_eq_getElem?_getD, hj]
        exact absurd (handleLive_of_running w j (hw j hrun) hrun) hl
      · subst h
        rw [List.getElem?_concat_length] at hj
      · rw [List.getElem?_append_right (by omega)] at hj
        rw [List.getElem?_eq_none (by simp; omega)] at hj
        simp at hj

theorem inv_step (w : World) (e : WEvent) (hw : Inv w) : Inv (stepWorld w e) := by
  cases e with
  | start ok => exact inv_start w ok hw
  | stop t =>
    simp only [stepWorld]
    unfold stop_uvicorn
    cases hup : w.uvicorn_process with
    | none => simpa using hw
    | some i =>
      by_cases hr : w.running i = true
      · cases ht : procWait GRACE_PERIOD t with
        | ok t' => simpa [hr, ht, ← hup] using inv_setDead w i hw
        | error e => simpa [hr, ht] using hw
      · simpa [hr] using hw
  | procDies i => exact inv_setDead w i hw

theorem inv_foldl : ∀ (es : List WEvent) (w : World),
    Inv w → Inv (es.foldl stepWorld w)
  | [], _, hw => hw
  | e :: rest, w, hw => inv_foldl rest _ (inv_step w e hw)

theorem inv_runWorld (es : List WEvent) : Inv (runWorld es) :=
  inv_foldl es World.init inv_init

/-- C7: calling `start_uvicorn` while the stored handle is still running is a
no-op that returns the existing handle; and along every sequence of
start/stop/crash events from the initial world, at most one spawned process
is running at any time - in particular a stop followed by a start never
yields two simultaneously live handles. -/
theorem C7_single_live_handle :
    (∀ (w : World) (ok : Bool), w.handleLive = true →
      start_uvicorn w ok = (w, w.uvicorn_process)) ∧
    (∀ (es : List WEvent) (i j : Nat),
      (runWorld es).running i = true → (runWorld es).running j = true →
        i = j) := by
  constructor
  · intro w ok h
    simp [start_uvicorn, h]
  · intro es i j hi hj
    have h1 := inv_runWorld es i hi
    have h2 := inv_runWorld es j hj
    rw [h1] at h2
    exact Option.some.inj h2

/-- Witness for C7: a running handle makes `start_uvicorn` a no-op, and after
a start, a failed stop and another start only one process is live. -/
theorem C7_single_live_handle_witness :
    start_uvicorn ⟨some 0, [true]⟩ true = (⟨some 0, [true]⟩, some 0) ∧
    (0 : Nat) = 0 :=
  ⟨C7_single_live_handle.1 ⟨some 0, [true]⟩ true (by decide),
   C7_single_live_handle.2 [WEvent.start true, WEvent.stop none,
      WEvent.start true] 0 0 (by decide) (by decide)⟩

/-- C8: `stop_uvicorn` never propagates an exception; when no running handle
exists it is a no-op; otherwise it waits at most the 10-second grace period,
and when the process fails to exit in time it leaves the world unchanged (no
forced kill, the handle is still live) and logs the termination failure. -/
theorem C8_stop_grace_period (w : World) (exitTime : Option Nat) :
    ∃ r : World × Nat × List String, stop_uvicorn w exitTime = .ok r ∧
      r.2.1 ≤ GRACE_PERIOD ∧
      (w.handleLive = false → r.1 = w ∧ r.2.1 = 0) ∧
      (w.handleLive = true → timedOut exitTime →
        r.1 = w ∧ r.1.handleLive = true ∧
        ("Failed to terminate uvicorn: TimeoutExpired") ∈ r.2.2) := by
  cases hup : w.uvicorn_process with
  | none =>
    have hlf : w.handleLive = false := by simp [World.handleLive, hup]
    have heq : stop_uvicorn w exitTime =
        .ok (w, 0, ["No active uvicorn process found."]) := by
      simp [stop_uvicorn, hup]
    refine ⟨_, heq, by simp [GRACE_PERIOD], fun _ => ⟨rfl, rfl⟩, fun h => ?_⟩
    rw [hlf] at h
    simp at h
  | some i =>
    by_cases hr : w.running i = true
    · have hlt := handleLive_of_running w i hup hr
      cases hext : exitTime with
      | some t =>
        by_cases hto : t ≤ GRACE_PERIOD
        · have heq : stop_uvicorn w (some t) =
              .ok (⟨w.uvicorn_process, w.procs.set i false⟩, t,
                   ["Terminating uvicorn",
                    "Uvicorn terminated successfully."]) := by
            simp [stop_uvicorn, hup, hr, procWait, hto]
          refine ⟨_, heq, by simpa using hto, fun h => ?_, fun _ h10 => ?_⟩
          · rw [hlt] at h; simp at h
          · rw [timedOut] at h10; omega
        · have heq : stop_uvicorn w (some t) =
              .ok (w, GRACE_PERIOD,
                   ["Terminating uvicorn",
                    "Failed to terminate uvicorn: " ++ "TimeoutExpired"]) := by
            simp [stop_uvicorn, hup, hr, procWait, hto]
          refine ⟨_, heq, Nat.le_refl _, fun h => ?_, fun _ _ => ?_⟩
          · rw [hlt] at h; simp at h
          · exact ⟨rfl, hlt,
              List.mem_cons_of_mem _ (List.mem_cons_self _ _)⟩
      | none =>
        have heq : stop_uvicorn w none =
            .ok (w, GRACE_PERIOD,
                 ["Terminating uvicorn",
                  "Failed to terminate uvicorn: " ++ "TimeoutExpired"]) := by
          simp [stop_uvicorn, hup, hr, procWait]
        refine ⟨_, heq, Nat.le_refl _, fun h => ?_, fun _ _ => ?_⟩
        · rw [hlt] at h; simp at h
        · exact ⟨rfl, hlt,
            List.mem_cons_of_mem _ (List.mem_cons_self _ _)⟩
    · have hlf : w.handleLive = false := by
        simp [World.handleLive, hup]
        simpa using hr
      have heq : stop_uvicorn w exitTime =
          .ok (w, 0, ["No active uvicorn process found."]) := by
        simp [stop_uvicorn, hup, hr]
      refine ⟨_, heq, by simp [GRACE_PERIOD], fun _ => ⟨rfl, rfl⟩, fun h => ?_⟩
      rw [hlf] at h
      simp at h

/-- Witness for C8: stopping a live handle whose process never exits. -/
theorem C8_stop_grace_period_witness :
    (stop_uvicorn ⟨some 0, [true]⟩ none).toOption.isSome = true := by
  obtain ⟨r, hr, -, -, -⟩ := C8_stop_grace_period ⟨some 0, [true]⟩ none
  rw [hr]
  rfl

theorem sleepPhase_eq :
    sleepPhase =
      [⟨.sleepCheck, 0⟩, ⟨.unitSleep, 1⟩, ⟨.sleepCheck, 0⟩, ⟨.unitSleep, 1⟩,
       ⟨.sleepCheck, 0⟩, ⟨.unitSleep, 1⟩, ⟨.sleepCheck, 0⟩, ⟨.unitSleep, 1⟩,
       ⟨.sleepCheck, 0⟩, ⟨.unitSleep, 1⟩, ⟨.sleepCheck, 0⟩, ⟨.unitSleep, 1⟩,
       ⟨.sleepCheck, 0⟩, ⟨.unitSleep, 1⟩, ⟨.sleepCheck, 0⟩, ⟨.unitSleep, 1⟩,
       ⟨.sleepCheck, 0⟩, ⟨.unitSleep, 1⟩, ⟨.sleepCheck, 0⟩,
       ⟨.unitSleep, 1⟩] := by
  rfl

theorem check_ne_restart (a : Act) (h : isCheck a.kind = true) :
    a.kind ≠ ActKind.restartCall := by
  cases hk : a.kind <;> simp_all [isCheck]

theorem window_cons_of_check (a : Act) (l : List Act)
    (h : isCheck a.kind = true) : window (a :: l) = [a] := by
  simp [window, h]

theorem window_cons_of_not_check (a : Act) (l : List Act)
    (h : isCheck a.kind = false) : window (a :: l) = a :: window l := by
  simp [window, h]

theorem segOK_mono (l : List Act) : ∀ c c' : Nat, c' ≤ c →
    segOK c l = true → segOK c' l = true := by
  induction l with
  | nil => intro c c' _ _; rfl
  | cons a l ih =>
    intro c c' hcc h
    simp only [segOK] at h ⊢
    by_cases hchk : isCheck a.kind = true
    · rw [if_pos hchk] at h ⊢; exact h
    · rw [if_neg hchk] at h ⊢
      by_cases hres : a.kind = ActKind.restartCall
      · rw [if_pos hres] at h ⊢
        rw [Bool.and_eq_true] at h ⊢
        obtain ⟨h1, h2⟩ := h
        have hc1 : c + 1 ≤ 1 := of_decide_eq_true h1
        exact ⟨decide_eq_true (by omega), ih (c + 1) (c' + 1) (by omega) h2⟩
      · rw [if_neg hres] at h ⊢
        exact ih c c' hcc h

theorem segOK_zero_tail (a : Act) (l : List Act)
    (h : segOK 0 (a :: l) = true) : segOK 0 l = true := by
  simp only [segOK] at h
  by_cases hchk : isCheck a.kind = true
  · rwa [if_pos hchk] at h
  · rw [if_neg hchk] at h
    by_cases hres : a.kind = ActKind.restartCall
    · rw [if_pos hres] at h
      rw [Bool.and_eq_true] at h
      exact segOK_mono l 1 0 (by omega) h.2
    · rwa [if_neg hres] at h

theorem segOK_zero_drop (l : List Act) (n : Nat)
    (h : segOK 0 l = true) : segOK 0 (l.drop n) = true := by
  induction n generalizing l with
  | zero => simpa using h
  | succ m ih =>
    cases l with
    | nil => simpa using h
    | cons a l =>
      rw [List.drop_succ_cons]
      exact ih l (segOK_zero_tail a l h)

theorem countRestarts_window (l : List Act) : ∀ c : Nat, c ≤ 1 →
    segOK c l = true → countRestarts (window l) + c ≤ 1 := by
  induction l with
  | nil => intro c hc _; simpa [window, countRestarts] using hc
  | cons a l ih =>
    intro c hc h
    simp only [segOK] at h
    by_cases hchk : isCheck a.kind = true
    · rw [if_pos hchk] at h
      have hne : decide (a.kind = ActKind.restartCall) = false :=
        decide_eq_false (check_ne_restart a hchk)
      simp [window, hchk, countRestarts, hne]
      omega
    · rw [if_neg hchk] at h
      by_cases hres : a.kind = ActKind.restartCall
      · rw [if_pos hres] at h
        rw [Bool.and_eq_true] at h
        obtain ⟨h1, h2⟩ := h
        have hc1 : c + 1 ≤ 1 := of_decide_eq_true h1
        have hrec := ih (c + 1) hc1 h2
        simp only [window, hchk, if_neg, Bool.false_eq_true] at hrec ⊢
        simp [countRestarts, List.countP_cons, hres] at hrec ⊢
        omega
      · rw [if_neg hres] at h
        have hrec := ih c hc h
        simp only [window, hchk, if_neg, Bool.false_eq_true] at hrec ⊢
        simp [countRestarts, List.countP_cons, hres] at hrec ⊢
        omega

theorem segOK_iter_append (s : MonitorState) (b : Bool) (c : Nat)
    (t : List Act) : segOK c (iterActs s b ++ t) = segOK 0 t := by
  cases hres : (monitorStep s b).2.restarted <;>
    simp [iterActs, hres, sleepPhase_eq, segOK, isCheck]

theorem segOK_trace (rs : List Bool) : ∀ s : MonitorState,
    segOK 0 (trace s rs) = true := by
  induction rs with
  | nil => intro s; rfl
  | cons b rest ih =>
    intro s
    rw [trace, segOK_iter_append]
    exact ih _

theorem sleepNext_tail (a : Act) (l : List Act) (h : sleepNext (a :: l)) :
    sleepNext l := by
  cases l with
  | nil => trivial
  | cons b l => exact h.2

theorem sleepNext_drop (l : List Act) (n : Nat) (h : sleepNext l) :
    sleepNext (l.drop n) := by
  induction n generalizing l with
  | zero => simpa using h
  | succ m ih =>
    cases l with
    | nil => trivial
    | cons a l =>
      rw [List.drop_succ_cons]
      exact ih l (sleepNext_tail a l h)

theorem headCheck_trace (rs : List Bool) (s : MonitorState) :
    headCheck (trace s rs) := by
  cases rs with
  | nil => trivial
  | cons b rest =>
    rw [trace]
    simp [iterActs, headCheck, isCheck]

theorem sleepNext_iter_append (s : MonitorState) (b : Bool) (t : List Act)
    (hh : headCheck t) (ht : sleepNext t) :
    sleepNext (iterActs s b ++ t) := by
  cases t with
  | nil =>
    cases hres : (monitorStep s b).2.restarted <;>
      simp [iterActs, hres, sleepPhase_eq, sleepNext, isCheck]
  | cons x t' =>
    have hx : isCheck x.kind = true := hh
    cases hres : (monitorStep s b).2.restarted <;>
      (simp [iterActs, hres, sleepPhase_eq, sleepNext, isCheck, ht] <;>
        exact hx)

theorem sleepNext_trace (rs : List Bool) : ∀ s : MonitorState,
    sleepNext (trace s rs) := by
  induction rs with
  | nil => intro s; trivial
  | cons b rest ih =>
    intro s
    rw [trace]
    exact sleepNext_iter_append s b _ (headCheck_trace rest _) (ih _)

theorem actWF_iter (s : MonitorState) (b : Bool) :
    ∀ a ∈ iterActs s b, actWF a := by
  intro a ha
  rw [iterActs] at ha
  rcases List.mem_append.mp ha with h | h
  · rcases List.mem_append.mp h with h2 | h2
    · simp at h2
      rcases h2 with rfl | rfl <;>
        refine ⟨fun h => ?_, fun h => ?_⟩ <;>
        first
          | rfl
          | simp [isCheck] at h
    · cases hres : (monitorStep s b).2.restarted
      · rw [hres] at h2
        simp at h2
      · rw [hres] at h2
        simp at h2
        rcases h2 with rfl | rfl <;>
          refine ⟨fun h => ?_, fun h => ?_⟩ <;>
          first
            | rfl
            | simp [isCheck] at h
  · rw [sleepPhase_eq] at h
    fin_cases h <;>
      refine ⟨fun h => ?_, fun h => ?_⟩ <;>
      first
        | rfl
        | simp [isCheck] at h

theorem actWF_trace (rs : List Bool) : ∀ s : MonitorState,
    ∀ a ∈ trace s rs, actWF a := by
  induction rs with
  | nil => intro s a ha; simp [trace] at ha
  | cons b rest ih =>
    intro s a ha
    rw [trace] at ha
    rcases List.mem_append.mp ha with h | h
    · exact actWF_iter s b a h
    · exact ih _ a h

/-- C3 counterexample: three consecutive Unhealthy probes, with the exit flag
set immediately after the top-of-loop exit check of the third iteration (trace
position 49).  One further `restart_component()` call is executed after the
flag is set, and 13 seconds (5 of settling delay plus the 8-second backoff
sleep, not even counting the termination wait) elapse before the loop observes
the flag - more than the 10-second inter-probe interval. -/
theorem C3_counterexample :
    ¬ (countRestarts
          (executedAfterFlag (monitorTrace [false, false, false]) 49) = 0 ∧
       totalDur
          (executedAfterFlag (monitorTrace [false, false, false]) 49) ≤ 10) := by
  decide

/-- C3 (amended): once the exit flag is set, the loop terminates at the first
exit check it reaches, executing at most one further restart call (only the
one already pending in the iteration in progress); and whenever the flag is
set at an exit check or anywhere inside the inter-probe sleep phase, no
further restart call is executed and the loop terminates within one
time-unit. -/
theorem C3_exit_amended (rs : List Bool) (n : Nat) :
    countRestarts (executedAfterFlag (monitorTrace rs) n) ≤ 1 ∧
    (∀ a : Act, (monitorTrace rs)[n]? = some a →
      (a.kind = ActKind.topCheck ∨ a.kind = ActKind.sleepCheck ∨
        a.kind = ActKind.unitSleep) →
      countRestarts (executedAfterFlag (monitorTrace rs) n) = 0 ∧
      totalDur (executedAfterFlag (monitorTrace rs) n) ≤ 1) := by
  have hseg : segOK 0 ((monitorTrace rs).drop n) = true :=
    segOK_zero_drop _ n (segOK_trace rs initState)
  constructor
  · have h := countRestarts_window _ 0 (by omega) hseg
    simpa [executedAfterFlag] using h
  · intro a hget hkind
    obtain ⟨hn, ha⟩ := List.getElem?_eq_some_iff.mp hget
    have hmem : a ∈ monitorTrace rs := by
      rw [← ha]; exact List.getElem_mem hn
    have hwf := actWF_trace rs initState a hmem
    have hdrop : (monitorTrace rs).drop n =
        a :: (monitorTrace rs).drop (n + 1) := by
      rw [List.drop_eq_getElem_cons hn, ha]
    rcases hkind with hk | hk | hk
    · have hchk : isCheck a.kind = true := by rw [hk]; rfl
      rw [executedAfterFlag, hdrop, window_cons_of_check a _ hchk]
      simp [countRestarts, totalDur, hwf.1 hchk, hk]
    · have hchk : isCheck a.kind = true := by rw [hk]; rfl
      rw [executedAfterFlag, hdrop, window_cons_of_check a _ hchk]
      simp [countRestarts, totalDur, hwf.1 hchk, hk]
    · have hchk : isCheck a.kind = false := by rw [hk]; rfl
      have hdur : a.dur = 1 := hwf.2 hk
      have hsn : sleepNext ((monitorTrace rs).drop n) :=
        sleepNext_drop _ n (sleepNext_trace rs initState)
      rw [hdrop] at hsn
      rw [executedAfterFlag, hdrop, window_cons_of_not_check a _ hchk]
      cases hrest : (monitorTrace rs).drop (n + 1) with
      | nil => simp [window, countRestarts, totalDur, hdur, hk]
      | cons b rest =>
        rw [hrest] at hsn
        have hbchk : isCheck b.kind = true := hsn.1 hk
        have hbmem : b ∈ monitorTrace rs :=
          List.drop_subset (n + 1) _
            (by rw [hrest]; exact List.mem_cons_self b rest)
        have hbwf := actWF_trace rs initState b hbmem
        have hbne : decide (b.kind = ActKind.restartCall) = false :=
          decide_eq_false (check_ne_restart b hbchk)
        rw [window_cons_of_check b _ hbchk]
        constructor
        · simp [countRestarts, List.countP_cons, hk, hbne]
        · simp [totalDur, hdur, hbwf.1 hbchk]

/-- Witness for C3 (amended) at the first sleep-phase exit check of a
single-failure trace. -/
theorem C3_exit_amended_witness :
    countRestarts (executedAfterFlag (monitorTrace [false]) 4) = 0 ∧
    totalDur (executedAfterFlag (monitorTrace [false]) 4) ≤ 1 :=
  (C3_exit_amended [false] 4).2 ⟨ActKind.sleepCheck, 0⟩ (by decide)
    (Or.inr (Or.inl rfl))

end SelfHealing
